import Mathlib

/-!
Verification of the ArduinoStreamCommander framing/parsing/dispatch engine
(`src/StreamCommander.cpp`) against its natural-language specification.

Arduino `String` values are modelled as `List Char`; `int` index results as
`Int` (with `-1` for "not found"), mirroring `String::indexOf`.  The stateful
device (`StreamCommander`) is modelled as an explicit state record, and every
output-producing member function returns the new state together with the list
of messages written to the stream during that call.
-/

namespace StreamCommander

/-- First index at which the predicate holds, or `none`.
Models the scan loops of Arduino `String::indexOf` / the registry lookup. -/
def findIdxP {α : Type} (p : α → Bool) : List α → Option Nat
  | [] => none
  | x :: xs => if p x then some 0 else (findIdxP p xs).map (· + 1)

/-- Arduino `String::indexOf(char)`: index of the first occurrence of `c`
in `s`, or `-1` when `c` does not occur. -/
def indexOf (s : List Char) (c : Char) : Int :=
  match findIdxP (fun a => a == c) s with
  | some i => (i : Int)
  | none => -1

/-- Arduino `String::substring(left, right)`: swaps the bounds when
`left > right`, clamps to the string length, and returns the characters of
positions `[left, right)`. -/
def substring (s : List Char) (left right : Nat) : List Char :=
  (s.take (max left right)).drop (min left right)

/-- `StreamCommander::COMMAND_EOL_CR` (header constant). -/
def COMMAND_EOL_CR : Char := '\r'

/-- `StreamCommander::COMMAND_EOL_NL` (header constant). -/
def COMMAND_EOL_NL : Char := '\n'

/-- The terminator position `stringEnd` computed by
`StreamCommander::fetchCommand` (lines 427–447): the first CR or NL, provided
its index is strictly positive; `-1` when the cycle is aborted. -/
def stringEndOf (commandBuffer : List Char) : Int :=
  let cr := indexOf commandBuffer COMMAND_EOL_CR
  let nl := indexOf commandBuffer COMMAND_EOL_NL
  if cr > 0 ∧ nl > 0 then min cr nl
  else if cr > 0 then cr
  else if nl > 0 then nl
  else -1

/-- The name/arguments split of `StreamCommander::fetchCommand`
(lines 449–467): `commandEnd` is the first occurrence of the command
delimiter in the WHOLE buffer; when absent, the command ends at `stringEnd`
and the arguments stay empty. -/
def parseCommand (commandDelimiter : Char) (commandBuffer : List Char)
    (stringEnd : Nat) : List Char × List Char :=
  let commandEnd := indexOf commandBuffer commandDelimiter
  if commandEnd = -1 then
    (substring commandBuffer 0 stringEnd, [])
  else
    (substring commandBuffer 0 commandEnd.toNat,
     substring commandBuffer (commandEnd.toNat + 1) stringEnd)

/-- `StreamCommander::fetchCommand` (lines 412–468), from the buffer returned
by `readString` to the `(command, arguments)` pair handed to
`executeCommand`; `none` when the cycle aborts with no dispatch (no bytes
available, or no strictly positive CR/NL index). -/
def fetchCommand (commandDelimiter : Char) (commandBuffer : List Char) :
    Option (List Char × List Char) :=
  if commandBuffer.isEmpty then none
  else if stringEndOf commandBuffer = -1 then none
  else some (parseCommand commandDelimiter commandBuffer (stringEndOf commandBuffer).toNat)

/-- One encoded command line `<name><commandDelimiter><arguments><terminator>`
(inbound wire format of spec §6). -/
def encodeLine (commandDelimiter : Char) (name arguments terminator : List Char) :
    List Char :=
  name ++ commandDelimiter :: (arguments ++ terminator)

namespace MessageType

/-- Modelled from the spec: the message type tags live in the external
`MessageTypes.hpp` (not under `src/`); spec §6 lists `response` among the
types used by the core, matching the repository README's table. -/
def RESPONSE : String := "response"

/-- Modelled from the spec: the `info` message type tag (spec §6). -/
def INFO : String := "info"

/-- Modelled from the spec: the `error` message type tag (spec §6). -/
def ERROR : String := "error"

/-- Modelled from the spec: the `ping` message type tag (spec §6). -/
def PING : String := "ping"

/-- Modelled from the spec: the `status` message type tag (spec §6). -/
def STATUS : String := "status"

/-- Modelled from the spec: the `id` message type tag (spec §6). -/
def ID : String := "id"

/-- Modelled from the spec: the `active` message type tag (spec §6). -/
def ACTIVE : String := "active"

/-- Modelled from the spec: the `echo` message type tag (spec §6). -/
def ECHO : String := "echo"

/-- Modelled from the spec: the `commands` message type tag (spec §6). -/
def COMMANDS : String := "commands"

end MessageType

/-- One outbound message, as handed to `StreamCommander::sendMessage`. -/
structure Message where
  mtype : String
  content : String
deriving DecidableEq

/-- The line `StreamCommander::sendMessage` (lines 470–473) hands to
`println`: `type + getMessageDelimiter() + content`. -/
def renderMessage (messageDelimiter : Char) (m : Message) : String :=
  m.mtype ++ messageDelimiter.toString ++ m.content

/-- `CommandCallbackFunction` is a raw function pointer; it is modelled by
its address, `0` standing for `nullptr`. -/
abbrev CommandCallback := Nat

/-- The null function pointer. -/
def nullCallback : CommandCallback := 0

/-- `StreamCommander::CommandContainer` (header): one registered command. -/
structure CommandContainer where
  command : String
  callbackFunction : CommandCallback
deriving DecidableEq

/-- The mutable member state of a `StreamCommander` instance, together with
the channel's configured timeout (`streamInstance->setTimeout`) and the
EEPROM identity record written by `saveIdToEeprom`. -/
structure SCState where
  active : Bool
  status : String
  id : String
  echoCommands : Bool
  commandDelimiter : Char
  messageDelimiter : Char
  streamBufferTimeout : Int
  channelTimeout : Int
  commands : List CommandContainer
  eeprom : List Char
deriving DecidableEq

/-- The ordered name listing of the registry (`commands[i].command`). -/
def commandNames (st : SCState) : List String :=
  st.commands.map (fun c => c.command)

/-- `StreamCommander::getId` (lines 208–211). -/
def getId (st : SCState) : String :=
  st.id

/-- Arduino's `String( bool )` rendering: the `bool` resolves through
integral promotion to the `String(int)` constructor, so the text is the
numeral `"1"` or `"0"`. -/
def stringOfBool (b : Bool) : String :=
  if b then "1" else "0"

/-- `StreamCommander::sendIsActive` (lines 505–508): a message of type
`MessageType::ACTIVE` whose content is `String( isActive() )`. -/
def sendIsActive (st : SCState) : Message :=
  { mtype := MessageType.ACTIVE, content := stringOfBool st.active }

/-- `StreamCommander::setActive` (lines 87–96): store and send only when the
flag differs; `sendIsActive` reads the already-updated flag. -/
def setActive (st : SCState) (active : Bool) : SCState × List Message :=
  if st.active ≠ active then
    let st2 := { st with active := active }
    (st2, [sendIsActive st2])
  else
    (st, [])

/-- `StreamCommander::sendStatus` (lines 495–498). -/
def sendStatus (st : SCState) : Message :=
  { mtype := MessageType.STATUS, content := st.status }

/-- `StreamCommander::updateStatus` (lines 218–231): store only when the
status changed, and send only when additionally the device is active. -/
def updateStatus (st : SCState) (status : String) : SCState × List Message :=
  if ¬ st.status = status then
    let st2 := { st with status := status }
    if st2.active then (st2, [sendStatus st2]) else (st2, [])
  else
    (st, [])

/-- `StreamCommander::ID_MAX_LENGTH` (header constant). -/
def ID_MAX_LENGTH : Nat := 32

/-- Arduino `String::toCharArray(buf, size)` copies at most `size - 1`
characters and NUL-terminates, so the C-string content of the buffer is the
first `size - 1` characters of the string. -/
def toCharArrayContent (id : String) (size : Nat) : List Char :=
  id.data.take (size - 1)

/-- `StreamCommander::saveIdToEeprom` (lines 162–179): the identity record
written by `EEPROM.put( 0, idBuffer )` after
`id.toCharArray( idBuffer, ID_MAX_LENGTH )`. -/
def saveIdToEeprom (id : String) : List Char :=
  toCharArrayContent id ID_MAX_LENGTH

/-- `StreamCommander::setId` (lines 181–206), in the build where the EEPROM
collaborator is present: too-long identities are rejected with an error, an
unchanged identity is a no-op with a response, otherwise the record is
persisted, the member updated, and an id message sent. -/
def setId (st : SCState) (id : String) : SCState × List Message :=
  if id.length > ID_MAX_LENGTH then
    (st, [{ mtype := MessageType.ERROR,
            content := "ID '" ++ id ++ "' too long (ID_MAX_LENGTH = "
              ++ toString ID_MAX_LENGTH ++ ")." }])
  else if id = st.id then
    (st, [{ mtype := MessageType.RESPONSE,
            content := "ID is already '" ++ id ++ "'." }])
  else
    ({ st with id := id, eeprom := saveIdToEeprom id },
     [{ mtype := MessageType.ID, content := id }])

/-- `StreamCommander::setStreamBufferTimeout` (lines 143–155):
`channelTimeout` models the effect of `getStreamInstance()->setTimeout`. -/
def setStreamBufferTimeout (st : SCState) (streamBufferTimeout : Int) :
    SCState × List Message :=
  if streamBufferTimeout < 0 then
    (st, [{ mtype := MessageType.ERROR, content := "Timeout has to be >= 0." }])
  else
    ({ st with channelTimeout := streamBufferTimeout,
               streamBufferTimeout := streamBufferTimeout }, [])

/-- The replacement branch of `StreamCommander::addCommand` (line 285)
overwrites only the `callbackFunction` field of the container found at the
given index. -/
def replaceCallback (commandCallback : CommandCallback) :
    Nat → List CommandContainer → List CommandContainer
  | _, [] => []
  | 0, c :: cs => { c with callbackFunction := commandCallback } :: cs
  | n + 1, c :: cs => c :: replaceCallback commandCallback n cs

/-- `StreamCommander::addCommand` (lines 238–286): empty names and null
callbacks are rejected with an error; a fresh name is appended
(`realloc` + write at index `numCommands`); an existing name keeps its slot,
its callback is overwritten, and an info message is sent. -/
def addCommand (st : SCState) (commandName : String)
    (commandCallback : CommandCallback) : SCState × List Message :=
  if commandName.length = 0 then
    (st, [{ mtype := MessageType.ERROR,
            content := "Command name must not be empty." }])
  else if commandCallback = nullCallback then
    (st, [{ mtype := MessageType.ERROR,
            content := "Command callback function must not be empty." }])
  else
    match findIdxP (fun c => c.command == commandName) st.commands with
    | none =>
        ({ st with commands := st.commands
            ++ [{ command := commandName, callbackFunction := commandCallback }] },
         [])
    | some i =>
        ({ st with commands := replaceCallback commandCallback i st.commands },
         [{ mtype := MessageType.INFO,
            content := "Command '" ++ commandName
              ++ "' already found. Replacing with new callback function." }])

/-- `StreamCommander::getCommandList` (lines 335–355): join every name with
`", "`, then `remove( listLength - separatorLength, separatorLength )`. -/
def getCommandList (st : SCState) : String :=
  let commandList := st.commands.foldl (fun acc c => acc ++ c.command ++ ", ") ""
  if commandList.length > 0 then
    String.mk (commandList.data.take (commandList.length - 2))
  else
    commandList

/-- `StreamCommander::commandIsActive` (lines 530–533): the `isactive`
built-in replies with `sendIsActive`. -/
def commandIsActive (st : SCState) : SCState × List Message :=
  (st, [sendIsActive st])

/-- A concrete device state with the default configuration (spec §6),
used to instantiate the universally quantified theorems. -/
def sampleState : SCState :=
  { active := true
    status := ""
    id := ""
    echoCommands := false
    commandDelimiter := ' '
    messageDelimiter := ':'
    streamBufferTimeout := 100
    channelTimeout := 100
    commands := []
    eeprom := [] }

/-- A registry with two distinct commands, used to instantiate the
registration theorems. -/
def replaceDemoState : SCState :=
  { sampleState with commands :=
      [{ command := "a", callbackFunction := 1 },
       { command := "b", callbackFunction := 2 }] }


theorem findIdxP_eq_none_iff {α : Type} {p : α → Bool} {l : List α} :
    findIdxP p l = none ↔ ∀ x ∈ l, p x = false := by
  induction l with
  | nil => simp [findIdxP]
  | cons x xs ih =>
    by_cases hx : p x <;> simp [findIdxP, hx, ih]

theorem findIdxP_append_of_none {α : Type} {p : α → Bool} {l₁ l₂ : List α}
    (h : findIdxP p l₁ = none) :
    findIdxP p (l₁ ++ l₂) = (findIdxP p l₂).map (l₁.length + ·) := by
  induction l₁ with
  | nil => cases hfz : findIdxP p l₂ <;> simp [hfz]
  | cons x xs ih =>
    by_cases hx : p x
    · simp [findIdxP, hx] at h
    · simp only [findIdxP, hx] at h
      simp only [Bool.false_eq_true, if_false, Option.map_eq_none'] at h
      have hrec := ih h
      show findIdxP p (x :: (xs ++ l₂)) = _
      simp only [findIdxP, hx, Bool.false_eq_true, if_false, hrec]
      cases hfz : findIdxP p l₂
      · simp [hfz]
      · simp [hfz]
        omega

theorem findIdxP_beq_of_not_mem {c : Char} {l : List Char} (h : c ∉ l) :
    findIdxP (fun a => a == c) l = none := by
  rw [findIdxP_eq_none_iff]
  intro x hx
  simp only [beq_eq_false_iff_ne, ne_eq]
  rintro rfl
  exact h hx

theorem indexOf_of_not_mem {c : Char} {l : List Char} (h : c ∉ l) :
    indexOf l c = -1 := by
  unfold indexOf
  rw [findIdxP_beq_of_not_mem h]

/-- The first delimiter of an encoded line sits right after the name,
provided the delimiter does not occur in the name. -/
theorem indexOf_encodeLine_delim {d : Char} {name arguments terminator : List Char}
    (h : d ∉ name) :
    indexOf (encodeLine d name arguments terminator) d = (name.length : Int) := by
  unfold indexOf encodeLine
  rw [findIdxP_append_of_none (findIdxP_beq_of_not_mem h)]
  simp [findIdxP]

/-- The first occurrence of a terminator character of an encoded line is
right after the name and arguments, provided it occurs in neither and is
not the delimiter. -/
theorem indexOf_encodeLine_term {d c : Char} {name arguments rest : List Char}
    (hn : c ∉ name) (hd : d ≠ c) (ha : c ∉ arguments) :
    indexOf (encodeLine d name arguments (c :: rest)) c
      = ((name.length + 1 + arguments.length : Nat) : Int) := by
  unfold indexOf encodeLine
  rw [findIdxP_append_of_none (findIdxP_beq_of_not_mem hn)]
  have hdc : (d == c) = false := by simp [hd]
  simp only [findIdxP, hdc, if_false]
  rw [findIdxP_append_of_none (findIdxP_beq_of_not_mem ha)]
  simp only [findIdxP, beq_self_eq_true, if_pos, Option.map_some]
  simp only [Option.map_some, Option.map_map]
  norm_num
  omega

/-- A character occurring in neither part of an encoded line does not occur
in it at all. -/
theorem indexOf_encodeLine_absent {d c : Char} {name arguments terminator : List Char}
    (hn : c ∉ name) (hd : d ≠ c) (ha : c ∉ arguments) (ht : c ∉ terminator) :
    indexOf (encodeLine d name arguments terminator) c = -1 := by
  apply indexOf_of_not_mem
  unfold encodeLine
  simp only [List.mem_append, List.mem_cons]
  rintro (hc | hc | hc | hc)
  · exact hn hc
  · exact hd hc.symm
  · exact ha hc
  · exact ht hc

theorem substring_left {s t : List Char} :
    substring (s ++ t) 0 s.length = s := by
  unfold substring
  rw [Nat.min_eq_left (Nat.zero_le _), Nat.max_eq_right (Nat.zero_le _)]
  rw [List.take_left]
  rfl

theorem substring_mid {s t u : List Char} :
    substring (s ++ (t ++ u)) s.length (s.length + t.length) = t := by
  unfold substring
  rw [Nat.min_eq_left (Nat.le_add_right _ _), Nat.max_eq_right (Nat.le_add_right _ _)]
  rw [← List.append_assoc]
  rw [List.take_left' (by simp), List.drop_left' rfl]

theorem substring_encodeLine_name {d : Char} {name rest : List Char} :
    substring (name ++ d :: rest) 0 name.length = name :=
  substring_left (t := d :: rest)

theorem substring_encodeLine_args {d : Char} {name arguments term : List Char} :
    substring (encodeLine d name arguments term)
      (name.length + 1) (name.length + 1 + arguments.length) = arguments := by
  have h : encodeLine d name arguments term = (name ++ [d]) ++ (arguments ++ term) := by
    simp [encodeLine]
  rw [h]
  have h2 := substring_mid (s := name ++ [d]) (t := arguments) (u := term)
  simpa using h2

/-- On an encoded line whose name and arguments are free of CR/LF and whose
delimiter is neither, the engine's terminator position is the encoded
terminator's first character, right after name, delimiter and arguments. -/
theorem stringEndOf_encodeLine {d : Char} {name arguments term : List Char}
    (hterm : term = [COMMAND_EOL_CR] ∨ term = [COMMAND_EOL_NL]
        ∨ term = [COMMAND_EOL_CR, COMMAND_EOL_NL])
    (hcr_n : COMMAND_EOL_CR ∉ name) (hnl_n : COMMAND_EOL_NL ∉ name)
    (hcr_a : COMMAND_EOL_CR ∉ arguments) (hnl_a : COMMAND_EOL_NL ∉ arguments)
    (hd_cr : d ≠ COMMAND_EOL_CR) (hd_nl : d ≠ COMMAND_EOL_NL) :
    stringEndOf (encodeLine d name arguments term)
      = ((name.length + 1 + arguments.length : Nat) : Int) := by
  have hne : COMMAND_EOL_NL ≠ COMMAND_EOL_CR := by decide
  rcases hterm with h | h | h <;> subst h <;> unfold stringEndOf
  · rw [indexOf_encodeLine_term hcr_n hd_cr hcr_a]
    rw [indexOf_encodeLine_absent hnl_n hd_nl hnl_a (by simp [hne])]
    rw [if_neg (by omega), if_pos (by omega)]
  · rw [indexOf_encodeLine_term hnl_n hd_nl hnl_a]
    rw [indexOf_encodeLine_absent hcr_n hd_cr hcr_a (by simp [hne.symm])]
    rw [if_neg (by omega), if_neg (by omega), if_pos (by omega)]
  · have hnl_a' : COMMAND_EOL_NL ∉ arguments ++ [COMMAND_EOL_CR] := by
      simp only [List.mem_append, List.mem_singleton]
      rintro (h | h)
      · exact hnl_a h
      · exact hne h
    rw [indexOf_encodeLine_term hcr_n hd_cr hcr_a]
    rw [show encodeLine d name arguments [COMMAND_EOL_CR, COMMAND_EOL_NL]
          = encodeLine d name (arguments ++ [COMMAND_EOL_CR]) [COMMAND_EOL_NL]
        by simp [encodeLine]]
    rw [indexOf_encodeLine_term hnl_n hd_nl hnl_a']
    rw [if_pos ⟨by omega, by omega⟩]
    have hlen : (arguments ++ [COMMAND_EOL_CR]).length = arguments.length + 1 := by simp
    rw [hlen, min_def, if_pos (by omega)]

theorem substring_encodeLine_name0 {d : Char} {name arguments term : List Char} :
    substring (encodeLine d name arguments term) 0 name.length = name :=
  @substring_encodeLine_name d name (arguments ++ term)

theorem substring_zero (s : List Char) (r : Nat) : substring s 0 r = s.take r := by
  unfold substring
  rw [Nat.min_eq_left (Nat.zero_le _), Nat.max_eq_right (Nat.zero_le _)]
  rfl

theorem substring_of_le (s : List Char) {l r : Nat} (h : l ≤ r) :
    substring s l r = (s.take r).drop l := by
  unfold substring
  rw [Nat.min_eq_left h, Nat.max_eq_right h]

/-- C1 (amended): for every command name and arguments in which the command
delimiter and the terminator characters CR/LF do not occur in the name, in
which additionally CR/LF do not occur in the arguments, and whose delimiter
is itself neither CR nor LF, encoding them as one line
`<name><command_delimiter><arguments><terminator>` (terminator CR, LF or
CRLF) and running `fetchCommand` yields back exactly the original name and
arguments; in particular `"led on\r\n"` with default delimiters parses to
name `"led"` and arguments `"on"`. -/
theorem fetchCommand_encodeLine_roundTrip (d : Char) (name arguments term : List Char)
    (hterm : term = [COMMAND_EOL_CR] ∨ term = [COMMAND_EOL_NL]
        ∨ term = [COMMAND_EOL_CR, COMMAND_EOL_NL])
    (hd_n : d ∉ name) (hcr_n : COMMAND_EOL_CR ∉ name) (hnl_n : COMMAND_EOL_NL ∉ name)
    (hcr_a : COMMAND_EOL_CR ∉ arguments) (hnl_a : COMMAND_EOL_NL ∉ arguments)
    (hd_cr : d ≠ COMMAND_EOL_CR) (hd_nl : d ≠ COMMAND_EOL_NL) :
    fetchCommand d (encodeLine d name arguments term) = some (name, arguments) ∧
    fetchCommand ' ' "led on\r\n".data = some ("led".data, "on".data) := by
  constructor
  · have hse := stringEndOf_encodeLine hterm hcr_n hnl_n hcr_a hnl_a hd_cr hd_nl
    have hdi := @indexOf_encodeLine_delim d name arguments term hd_n
    have hempty : (encodeLine d name arguments term).isEmpty = false := by
      cases name <;> rfl
    unfold fetchCommand
    rw [hempty]
    simp only [Bool.false_eq_true, if_false]
    rw [hse, if_neg (by omega)]
    simp only [Int.toNat_natCast]
    unfold parseCommand
    rw [hdi, if_neg (by omega)]
    simp only [Int.toNat_natCast]
    rw [substring_encodeLine_name0, substring_encodeLine_args]
  · decide

/-- C1 witness: the round-trip at name `"led"`, arguments `"on"`,
terminator CRLF, default delimiters. -/
theorem fetchCommand_encodeLine_roundTrip_witness :
    fetchCommand ' ' (encodeLine ' ' "led".data "on".data
        [COMMAND_EOL_CR, COMMAND_EOL_NL]) = some ("led".data, "on".data) :=
  (fetchCommand_encodeLine_roundTrip ' ' "led".data "on".data
    [COMMAND_EOL_CR, COMMAND_EOL_NL] (by decide) (by decide) (by decide)
    (by decide) (by decide) (by decide) (by decide) (by decide)).1

/-- C1 counterexample: the claim as stated only excludes the delimiter and
CR/LF from the NAME.  With name `"a"` and arguments `"\r"` (which satisfy
those hypotheses) the encoded line `"a \r\r\n"` parses to `("a", "")`, not
back to `("a", "\r")`: the CR inside the arguments is taken as the
terminator. -/
theorem encodeLine_roundTrip_fails_on_cr_arguments :
    (' ' ∉ "a".data ∧ COMMAND_EOL_CR ∉ "a".data ∧ COMMAND_EOL_NL ∉ "a".data) ∧
    fetchCommand ' ' (encodeLine ' ' "a".data "\r".data
        [COMMAND_EOL_CR, COMMAND_EOL_NL]) = some ("a".data, "".data) ∧
    ("a".data, ("".data : List Char)) ≠ ("a".data, "\r".data) := by decide

/-- C2: on the input bytes `"\r\n"` the engine does NOT silently drop the
empty command: the CR at index 0 fails the strictly-positive test, but the
LF at index 1 passes it, so `stringEnd = 1` and the cycle dispatches the
command name `"\r"` (with empty arguments) to `executeCommand` — which
reaches the default handler and emits a response message. -/
theorem fetchCommand_crlf_dispatches :
    fetchCommand ' ' "\r\n".data = some ("\r".data, "".data) := by decide

/-- C3 (amended): for every buffer in which the engine finds a terminator,
the split is determined by the first occurrence of the command delimiter in
the WHOLE buffer (not only the part preceding the terminator): if the
delimiter occurs nowhere in the buffer, the whole substring preceding the
terminator is the name and the arguments are empty; if its first occurrence
is strictly before the terminator, the name is the part before it and the
arguments are the part strictly between the delimiter and the terminator.
(The claim's parenthetical — that a delimiter at or after the terminator
must not affect the split — is dropped: it is false of the code.) -/
theorem fetchCommand_split (d : Char) (buf : List Char)
    (hne : stringEndOf buf ≠ -1) :
    (indexOf buf d = -1 →
        fetchCommand d buf = some (buf.take (stringEndOf buf).toNat, [])) ∧
    (∀ k : Nat, indexOf buf d = (k : Int) → (k : Int) < stringEndOf buf →
        fetchCommand d buf
          = some (buf.take k, (buf.take (stringEndOf buf).toNat).drop (k + 1))) := by
  have hfetch : fetchCommand d buf
      = some (parseCommand d buf (stringEndOf buf).toNat) := by
    cases buf with
    | nil => exact absurd (by decide) hne
    | cons x xs =>
      unfold fetchCommand
      simp only [List.isEmpty_cons, Bool.false_eq_true, if_false]
      rw [if_neg hne]
  constructor
  · intro hidx
    rw [hfetch]
    unfold parseCommand
    rw [if_pos hidx, substring_zero]
  · intro k hk hlt
    rw [hfetch]
    unfold parseCommand
    rw [hk, if_neg (by omega)]
    simp only [Int.toNat_natCast]
    rw [substring_zero, substring_of_le buf (by omega)]

/-- C3 witness: on `"led on\r\n"` the delimiter is at index 3, before the
terminator at index 6, and the split is `("led", "on")`. -/
theorem fetchCommand_split_witness :
    fetchCommand ' ' "led on\r\n".data
      = some ("led on\r\n".data.take 3,
          ("led on\r\n".data.take (stringEndOf "led on\r\n".data).toNat).drop (3 + 1)) :=
  (fetchCommand_split ' ' "led on\r\n".data (by decide)).2 3 (by decide) (by decide)

/-- C3 counterexample: in `"ab\r d\n"` the terminator is the CR at index 2
and no delimiter occurs before it, so the claim requires name `"ab"` and
empty arguments; but the code finds the delimiter at index 3 (after the
terminator) and produces name `"ab\r"` and arguments `"\r "` (via the
bound-swapping `substring(4, 2)`). -/
theorem fetchCommand_split_delim_after_term :
    fetchCommand ' ' "ab\r d\n".data = some ("ab\r".data, "\r ".data) ∧
    ("ab\r".data, "\r ".data) ≠ ("ab".data, ("".data : List Char)) := by decide


/-- C4: `updateStatus x` with a differing `x` stores `x` and emits exactly
one status message iff the active flag is true; with an equal `x` it changes
no state and emits no message; hence two successive `updateStatus x` calls
emit at most one status message in total. -/
theorem updateStatus_spec (st : SCState) (x : String) :
    (st.status ≠ x →
        (updateStatus st x).1 = { st with status := x } ∧
        (updateStatus st x).2
          = if st.active then [{ mtype := MessageType.STATUS, content := x }]
            else []) ∧
    (st.status = x → updateStatus st x = (st, [])) ∧
    ((updateStatus st x).2 ++ (updateStatus (updateStatus st x).1 x).2).length ≤ 1 := by
  by_cases h : st.status = x
  · refine ⟨fun hne => absurd h hne, fun _ => by simp [updateStatus, h], ?_⟩
    simp [updateStatus, h]
  · refine ⟨fun _ => ?_, fun he => absurd he h, ?_⟩
    · cases ha : st.active <;> simp [updateStatus, sendStatus, h, ha]
    · cases ha : st.active <;> simp [updateStatus, sendStatus, h, ha]

/-- C4 witness: on the default state (active, empty status), updating to
`"up"` stores it and emits one status message. -/
theorem updateStatus_spec_witness :
    (updateStatus sampleState "up").1 = { sampleState with status := "up" } ∧
    (updateStatus sampleState "up").2
      = if sampleState.active
        then [{ mtype := MessageType.STATUS, content := "up" }] else [] :=
  (updateStatus_spec sampleState "up").1 (by decide)

/-- C5: `setActive b` with a differing `b` stores `b` and emits exactly one
active message carrying the new value; with an equal `b` it is a silent
no-op; hence `setActive true` twice from an inactive device emits exactly
one active message. -/
theorem setActive_spec (st : SCState) (b : Bool) :
    (st.active ≠ b →
        setActive st b = ({ st with active := b },
          [{ mtype := MessageType.ACTIVE, content := stringOfBool b }])) ∧
    (st.active = b → setActive st b = (st, [])) ∧
    (st.active = false →
        (setActive st true).2 ++ (setActive (setActive st true).1 true).2
          = [{ mtype := MessageType.ACTIVE, content := stringOfBool true }]) := by
  refine ⟨fun hne => ?_, fun he => ?_, fun hin => ?_⟩
  · simp [setActive, sendIsActive, hne]
  · simp [setActive, he]
  · simp [setActive, sendIsActive, hin]

/-- C5 witness: activating an initially inactive device twice emits exactly
one active message. -/
theorem setActive_spec_witness :
    (setActive { sampleState with active := false } true).2
        ++ (setActive (setActive { sampleState with active := false } true).1 true).2
      = [{ mtype := MessageType.ACTIVE, content := stringOfBool true }] :=
  (setActive_spec { sampleState with active := false } true).2.2 (by decide)

/-- C7: an identity longer than `ID_MAX_LENGTH` is rejected: exactly one
error message, no state change (in particular the EEPROM record is not
rewritten), and `getId` afterwards returns the prior value. -/
theorem setId_too_long (st : SCState) (id : String)
    (h : id.length > ID_MAX_LENGTH) :
    (setId st id).1 = st ∧
    getId (setId st id).1 = getId st ∧
    (setId st id).1.eeprom = st.eeprom ∧
    (setId st id).2 = [{ mtype := MessageType.ERROR,
                         content := "ID '" ++ id ++ "' too long (ID_MAX_LENGTH = "
                           ++ toString ID_MAX_LENGTH ++ ")." }] := by
  simp [setId, h]

/-- C7 witness: a 33-character identity is rejected and the identity (here
the default empty one) is kept. -/
theorem setId_too_long_witness :
    (setId sampleState "abcdefghijklmnopqrstuvwxyz0123456").1 = sampleState ∧
    getId (setId sampleState "abcdefghijklmnopqrstuvwxyz0123456").1
      = getId sampleState ∧
    (setId sampleState "abcdefghijklmnopqrstuvwxyz0123456").1.eeprom
      = sampleState.eeprom ∧
    (setId sampleState "abcdefghijklmnopqrstuvwxyz0123456").2
      = [{ mtype := MessageType.ERROR,
           content := "ID '" ++ "abcdefghijklmnopqrstuvwxyz0123456"
             ++ "' too long (ID_MAX_LENGTH = " ++ toString ID_MAX_LENGTH ++ ")." }] :=
  setId_too_long sampleState "abcdefghijklmnopqrstuvwxyz0123456" (by decide)

/-- C8: a negative timeout is rejected with exactly one error message and no
change to either the stored timeout or the channel's configured timeout; a
timeout ≥ 0 is accepted, stored and propagated to the channel, with no
message. -/
theorem setStreamBufferTimeout_spec (st : SCState) (t : Int) :
    (t < 0 →
        setStreamBufferTimeout st t
          = (st, [{ mtype := MessageType.ERROR,
                    content := "Timeout has to be >= 0." }])) ∧
    (0 ≤ t →
        setStreamBufferTimeout st t
          = ({ st with channelTimeout := t, streamBufferTimeout := t }, [])) := by
  refine ⟨fun hneg => ?_, fun hpos => ?_⟩
  · simp [setStreamBufferTimeout, hneg]
  · have hnn : ¬ t < 0 := by omega
    simp [setStreamBufferTimeout, hnn]

/-- C8 witness: `-1` is rejected with the timeout unchanged; `250` is
accepted and stored. -/
theorem setStreamBufferTimeout_spec_witness :
    setStreamBufferTimeout sampleState (-1)
      = (sampleState, [{ mtype := MessageType.ERROR,
                         content := "Timeout has to be >= 0." }]) ∧
    setStreamBufferTimeout sampleState 250
      = ({ sampleState with channelTimeout := 250, streamBufferTimeout := 250 }, []) :=
  ⟨(setStreamBufferTimeout_spec sampleState (-1)).1 (by decide),
   (setStreamBufferTimeout_spec sampleState 250).2 (by decide)⟩

/-- C9: a 32-character identity (exactly `ID_MAX_LENGTH`) is accepted and
stored in full in memory, but the persistence write keeps only the first
`ID_MAX_LENGTH - 1 = 31` characters of the fixed-size record (the last byte
is the NUL terminator), so the record disagrees with the in-memory identity;
every identity of length ≤ 31 is persisted in full. -/
theorem setId_eeprom_truncates (st : SCState) (id : String)
    (hlen : id.length = ID_MAX_LENGTH) (hdiff : id ≠ st.id) :
    (setId st id).1.id = id ∧
    (setId st id).2 = [{ mtype := MessageType.ID, content := id }] ∧
    (setId st id).1.eeprom = id.data.take (ID_MAX_LENGTH - 1) ∧
    (setId st id).1.eeprom ≠ id.data ∧
    (∀ id2 : String, id2.length ≤ ID_MAX_LENGTH - 1 →
        saveIdToEeprom id2 = id2.data) := by
  have hnotlong : ¬ id.length > ID_MAX_LENGTH := by omega
  refine ⟨?_, ?_, ?_, ?_, ?_⟩
  · simp [setId, hnotlong, hdiff]
  · simp [setId, hnotlong, hdiff]
  · simp [setId, hnotlong, hdiff, saveIdToEeprom, toCharArrayContent]
  · simp only [setId, hnotlong, if_false, hdiff, saveIdToEeprom, toCharArrayContent]
    intro hcontra
    have hlen2 : (id.data.take (ID_MAX_LENGTH - 1)).length = id.data.length := by
      rw [hcontra]
    rw [List.length_take] at hlen2
    have : id.data.length = id.length := rfl
    rw [this, hlen] at hlen2
    simp [ID_MAX_LENGTH] at hlen2
  · intro id2 h2
    unfold saveIdToEeprom toCharArrayContent
    exact List.take_of_length_le h2

/-- C9 witness: the 32-character identity `"abcdefghijklmnopqrstuvwxyz012345"`
is stored in memory in full but persisted without its final character. -/
theorem setId_eeprom_truncates_witness :
    (setId sampleState "abcdefghijklmnopqrstuvwxyz012345").1.id
      = "abcdefghijklmnopqrstuvwxyz012345" ∧
    (setId sampleState "abcdefghijklmnopqrstuvwxyz012345").2
      = [{ mtype := MessageType.ID, content := "abcdefghijklmnopqrstuvwxyz012345" }] ∧
    (setId sampleState "abcdefghijklmnopqrstuvwxyz012345").1.eeprom
      = "abcdefghijklmnopqrstuvwxyz012345".data.take (ID_MAX_LENGTH - 1) ∧
    (setId sampleState "abcdefghijklmnopqrstuvwxyz012345").1.eeprom
      ≠ "abcdefghijklmnopqrstuvwxyz012345".data ∧
    (∀ id2 : String, id2.length ≤ ID_MAX_LENGTH - 1 →
        saveIdToEeprom id2 = id2.data) :=
  setId_eeprom_truncates sampleState "abcdefghijklmnopqrstuvwxyz012345"
    (by decide) (by decide)

/-- C10: every outbound active message — from a flag change in `setActive`
or from the `isactive` query — renders the boolean as the numeral `"1"` or
`"0"` (never `"true"`/`"false"`), and its wire line is exactly
`"active" + message_delimiter + that numeral`. -/
theorem activeMessage_numeral (st : SCState) (b : Bool) :
    (∀ m ∈ (setActive st b).2,
        m.mtype = MessageType.ACTIVE ∧ (m.content = "1" ∨ m.content = "0") ∧
        renderMessage st.messageDelimiter m
          = "active" ++ st.messageDelimiter.toString ++ m.content) ∧
    (∀ m ∈ (commandIsActive st).2,
        m.mtype = MessageType.ACTIVE ∧ (m.content = "1" ∨ m.content = "0") ∧
        renderMessage st.messageDelimiter m
          = "active" ++ st.messageDelimiter.toString ++ m.content) := by
  constructor
  · intro m hm
    by_cases hne : st.active ≠ b
    · unfold setActive at hm
      rw [if_pos hne] at hm
      simp at hm
      subst hm
      refine ⟨rfl, ?_, rfl⟩
      cases b <;> simp [sendIsActive, stringOfBool]
    · rw [not_ne_iff] at hne
      simp [setActive, hne] at hm
  · intro m hm
    simp only [commandIsActive, List.mem_singleton] at hm
    subst hm
    refine ⟨rfl, ?_, rfl⟩
    cases st.active <;> simp [sendIsActive, stringOfBool]

theorem replaceCallback_length (cb : CommandCallback) (n : Nat)
    (l : List CommandContainer) : (replaceCallback cb n l).length = l.length := by
  induction l generalizing n with
  | nil => cases n <;> rfl
  | cons c cs ih =>
    cases n with
    | zero => rfl
    | succ m => simp [replaceCallback, ih]

theorem replaceCallback_map_command (cb : CommandCallback) (n : Nat)
    (l : List CommandContainer) :
    (replaceCallback cb n l).map (fun c => c.command)
      = l.map (fun c => c.command) := by
  induction l generalizing n with
  | nil => cases n <;> rfl
  | cons c cs ih =>
    cases n with
    | zero => rfl
    | succ m => simp [replaceCallback, ih]

theorem replaceCallback_getElem (cb : CommandCallback) (n : Nat)
    (l : List CommandContainer) :
    (replaceCallback cb n l)[n]?
      = (l[n]?).map (fun c => { c with callbackFunction := cb }) := by
  induction l generalizing n with
  | nil => cases n <;> rfl
  | cons c cs ih =>
    cases n with
    | zero => simp [replaceCallback]
    | succ m => simp [replaceCallback, ih]

theorem findIdxP_some_elem {α : Type} {p : α → Bool} {l : List α} {i : Nat}
    (h : findIdxP p l = some i) : ∃ x, l[i]? = some x ∧ p x := by
  induction l generalizing i with
  | nil => simp [findIdxP] at h
  | cons x xs ih =>
    by_cases hx : p x
    · simp only [findIdxP, hx, if_pos, Option.some.injEq] at h
      subst h
      exact ⟨x, by simp, hx⟩
    · simp only [findIdxP, hx, Bool.false_eq_true, if_false] at h
      cases hf : findIdxP p xs with
      | none => rw [hf] at h; simp at h
      | some j =>
        rw [hf] at h
        simp only [Option.map_some', Option.some.injEq] at h
        subst h
        obtain ⟨y, hy, hpy⟩ := ih hf
        exact ⟨y, by simpa using hy, hpy⟩

theorem findIdxP_map {α β : Type} (f : α → β) (p : β → Bool) (l : List α) :
    findIdxP p (l.map f) = findIdxP (fun a => p (f a)) l := by
  induction l with
  | nil => rfl
  | cons x xs ih => by_cases h : p (f x) <;> simp [findIdxP, h, ih]

theorem addCommand_preserves_nodup (st : SCState) (n : String)
    (cb : CommandCallback) (h : (commandNames st).Nodup) :
    (commandNames (addCommand st n cb).1).Nodup := by
  unfold addCommand
  split_ifs with h1 h2
  · exact h
  · exact h
  · cases hf : findIdxP (fun c => c.command == n) st.commands with
    | none =>
      simp only [commandNames, List.map_append, List.map_cons, List.map_nil]
      rw [List.nodup_append]
      refine ⟨h, List.nodup_singleton n, ?_⟩
      intro a ha hb
      simp only [List.mem_singleton] at hb
      subst hb
      rw [findIdxP_eq_none_iff] at hf
      obtain ⟨c, hc, hcc⟩ := List.mem_map.mp ha
      have hfc := hf c hc
      rw [hcc] at hfc
      simp at hfc
    | some j =>
      simp only [commandNames]
      rw [replaceCallback_map_command]
      exact h

/-- C6: registering an already-registered (hence non-empty) name with a new
non-null handler replaces the handler in place: the registry size is
unchanged, the ordered name listing is unchanged (so the name keeps its
original insertion position and, names being unique, occurs exactly once in
it), an informational — not error — message is emitted, and the
at-most-one-handler-per-name invariant is preserved by this and by every
registration. -/
theorem addCommand_replace (st : SCState) (commandName : String)
    (commandCallback : CommandCallback) (i : Nat)
    (hname : commandName.length ≠ 0) (hcb : commandCallback ≠ nullCallback)
    (hfound : findIdxP (fun c => c.command == commandName) st.commands = some i)
    (hnodup : (commandNames st).Nodup) :
    (addCommand st commandName commandCallback).1.commands.length
        = st.commands.length ∧
    commandNames (addCommand st commandName commandCallback).1 = commandNames st ∧
    (commandNames (addCommand st commandName commandCallback).1).count commandName
        = 1 ∧
    findIdxP (fun c => c.command == commandName)
        (addCommand st commandName commandCallback).1.commands = some i ∧
    (addCommand st commandName commandCallback).1.commands[i]?
        = some { command := commandName, callbackFunction := commandCallback } ∧
    (addCommand st commandName commandCallback).2
        = [{ mtype := MessageType.INFO,
             content := "Command '" ++ commandName
               ++ "' already found. Replacing with new callback function." }] ∧
    (commandNames (addCommand st commandName commandCallback).1).Nodup ∧
    (∀ (st' : SCState) (n' : String) (cb' : CommandCallback),
        (commandNames st').Nodup →
        (commandNames (addCommand st' n' cb').1).Nodup) := by
  obtain ⟨c, hci, hpc⟩ := findIdxP_some_elem hfound
  have hcname : c.command = commandName := by
    exact beq_iff_eq.mp hpc
  have hmem : commandName ∈ commandNames st := by
    rw [← hcname]
    exact List.mem_map.mpr ⟨c, List.getElem?_mem hci, rfl⟩
  have hadd : addCommand st commandName commandCallback
      = ({ st with commands := replaceCallback commandCallback i st.commands },
         [{ mtype := MessageType.INFO,
            content := "Command '" ++ commandName
              ++ "' already found. Replacing with new callback function." }]) := by
    unfold addCommand
    rw [if_neg hname, if_neg hcb, hfound]
  have hnames : commandNames (addCommand st commandName commandCallback).1
      = commandNames st := by
    rw [hadd]
    simp only [commandNames]
    exact replaceCallback_map_command commandCallback i st.commands
  refine ⟨?_, hnames, ?_, ?_, ?_, ?_, ?_, addCommand_preserves_nodup⟩
  · rw [hadd]
    exact replaceCallback_length commandCallback i st.commands
  · rw [hnames]
    exact List.count_eq_one_of_mem hnodup hmem
  · have hfd : ∀ l : List CommandContainer,
        findIdxP (fun c => c.command == commandName) l
          = findIdxP (fun s => s == commandName) (l.map (fun c => c.command)) :=
      fun l => (findIdxP_map (fun c => c.command) (fun s => s == commandName) l).symm
    rw [hfd]
    have hnames2 : (addCommand st commandName commandCallback).1.commands.map
        (fun c => c.command) = st.commands.map (fun c => c.command) := hnames
    rw [hnames2, ← hfd, hfound]
  · rw [hadd]
    show (replaceCallback commandCallback i st.commands)[i]? = _
    rw [replaceCallback_getElem, hci]
    simp only [Option.map_some']
    rw [show ({ c with callbackFunction := commandCallback } : CommandContainer)
          = { command := c.command, callbackFunction := commandCallback } from rfl,
        hcname]
  · rw [hadd]
  · rw [hnames]
    exact hnodup

/-- C6 witness: re-registering `"a"` (first of two commands) with callback
`3` keeps exactly one `"a"` in the listing and overwrites slot 0. -/
theorem addCommand_replace_witness :
    (commandNames (addCommand replaceDemoState "a" 3).1).count "a" = 1 ∧
    (addCommand replaceDemoState "a" 3).1.commands[0]?
      = some { command := "a", callbackFunction := 3 } :=
  ⟨(addCommand_replace replaceDemoState "a" 3 0 (by decide) (by decide)
      (by decide) (by decide)).2.2.1,
   (addCommand_replace replaceDemoState "a" 3 0 (by decide) (by decide)
      (by decide) (by decide)).2.2.2.2.1⟩

/-- C10 witness: the active message of activating an inactive device has
content `"1"` and wire line `"active:1"`. -/
theorem activeMessage_numeral_witness :
    ({ mtype := MessageType.ACTIVE, content := stringOfBool true } : Message).mtype
        = MessageType.ACTIVE ∧
    (({ mtype := MessageType.ACTIVE, content := stringOfBool true } : Message).content
        = "1" ∨
     ({ mtype := MessageType.ACTIVE, content := stringOfBool true } : Message).content
        = "0") ∧
    renderMessage sampleState.messageDelimiter
        { mtype := MessageType.ACTIVE, content := stringOfBool true }
      = "active" ++ sampleState.messageDelimiter.toString
          ++ ({ mtype := MessageType.ACTIVE, content := stringOfBool true } : Message).content :=
  (activeMessage_numeral { sampleState with active := false } true).1
    { mtype := MessageType.ACTIVE, content := stringOfBool true } (by decide)

end StreamCommander
